import Mathlib

/-!
Shallow embedding of the UML Designer parser of the jhipster-uml
repository, together with theorems settling the behavioural claims about
it.

The parser walks an in-memory tree of `packagedElement`s (produced by an
external XML deserializer) in five fixed phases: classify, types, enums,
classes and fields, associations.  Each phase appends validated entries
to an append-only intermediate model (`ParsedData`) or aborts with a
`BuildException`.

Modelling conventions:
* XML attribute values (`element.$.name`, `$.value`, ...) are strings; an
  absent attribute is modelled as the empty string, matching the
  JavaScript falsiness tests (`if (!element.$.name)`).
* Optional sub-elements (`ownedLiteral`, `ownedAttribute`, `type`) are
  `Option`s; the JavaScript truthiness test on `element.$.type` (a
  string attribute) is `jsTruthy`.
* `ownedComment` is collapsed to `Option String`, standing for
  `element.ownedComment[0].body[0]` when the guard
  `element.ownedComment && element.ownedComment[0].body` holds.
* Associations are binary: `ownedEnd0`/`ownedEnd1` model
  `association.ownedEnd[0]`/`ownedEnd[1]`, and `lowerValue`/`upperValue`
  model `end.lowerValue[0].$.value`/`end.upperValue[0].$.value`.  The
  parser reads exactly those two ends.
* Helper modules that are not part of the parser source
  (`parser_helper`, the reserved-word checks of `jhipster_utils`, the
  database-type policy) are abstracted as the parameter records
  `ParserEnv` and `DatabaseTypes`, with the throwing wrappers modelled
  from the spec.
-/

namespace JhipsterUml

/-- lodash `_.upperFirst`: capitalizes the first character, keeps the rest. -/
def upperFirst (s : String) : String :=
  match s.data with
  | [] => ""
  | c :: cs => String.mk (c.toUpper :: cs)

/-- lodash `_.lowerFirst`: lowercases the first character, keeps the rest. -/
def lowerFirst (s : String) : String :=
  match s.data with
  | [] => ""
  | c :: cs => String.mk (c.toLower :: cs)

/-- JavaScript `String.prototype.toUpperCase` (ASCII semantics). -/
def toUpperCase (s : String) : String :=
  String.mk (s.data.map Char.toUpper)

/-- JavaScript `String.prototype.toLowerCase` (ASCII semantics). -/
def toLowerCase (s : String) : String :=
  String.mk (s.data.map Char.toLower)

/-- JavaScript truthiness of an optional string attribute:
`undefined` and the empty string are falsy. -/
def jsTruthy : Option String → Bool
  | none => false
  | some s => s ≠ ""

/-! ## The raw input document -/

/-- One entry of `enumElement.ownedLiteral`. -/
structure Literal where
  name : String := ""
deriving DecidableEq, Repr, Inhabited

/-- One entry of `element.ownedAttribute`.
`typeAttr` models the inline attribute `element.$.type`;
`typeElement` models the cross-reference `element.type[0].$.href`. -/
structure Attribute where
  name : String := ""
  xmiId : String := ""
  typeAttr : Option String := none
  typeElement : Option String := none
  ownedComment : Option String := none
deriving DecidableEq, Repr, Inhabited

/-- One entry of `association.ownedEnd`. -/
structure OwnedEnd where
  type : String := ""
  name : String := ""
  lowerValue : String := ""
  upperValue : String := ""
deriving DecidableEq, Repr, Inhabited

/-- One top-level `packagedElement`.  A single record mirrors the
duck-typed JavaScript objects: each phase reads only the fields relevant
to its element kind. -/
structure Element where
  xmiType : String := ""
  name : String := ""
  xmiId : String := ""
  ownedLiteral : Option (List Literal) := none
  ownedAttribute : Option (List Attribute) := none
  ownedComment : Option String := none
  ownedEnd0 : OwnedEnd := {}
  ownedEnd1 : OwnedEnd := {}
deriving DecidableEq, Repr, Inhabited

/-! ## The intermediate model (`parsedData`) -/

/-- Cardinality of a binary association (`cardinalities` module). -/
inductive Cardinality where
  | ONE_TO_ONE
  | ONE_TO_MANY
  | MANY_TO_ONE
  | MANY_TO_MANY
deriving DecidableEq, Repr, Inhabited

structure TypeData where
  name : String
deriving DecidableEq, Repr, Inhabited

structure EnumData where
  name : String
  values : List String
deriving DecidableEq, Repr, Inhabited

structure ClassData where
  name : String
  tableName : String
  comment : Option String := none
deriving DecidableEq, Repr, Inhabited

structure FieldData where
  name : String
  type : String := ""
  comment : Option String := none
deriving DecidableEq, Repr, Inhabited

/-- The association payload built in `fillAssociations`.  `from_`/`to_`
keep the JavaScript key names `from`/`to` (a Lean keyword forces the
underscore).  The boolean flags model the presence of the
`isInjectedFieldIn*Required = true` assignments: `false` means the flag
was never set. -/
structure AssociationData where
  from_ : String
  to_ : String
  injectedFieldInFrom : String
  injectedFieldInTo : String
  isInjectedFieldInFromRequired : Bool := false
  isInjectedFieldInToRequired : Bool := false
  type : Cardinality := .ONE_TO_ONE
  commentInFrom : Option String := none
  commentInTo : Option String := none
deriving DecidableEq, Repr, Inhabited

/-- The append-only intermediate model.  Entries are keyed by the source
element id; fields additionally carry their owning class id. -/
structure ParsedData where
  types : List (String × TypeData) := []
  enums : List (String × EnumData) := []
  classes : List (String × ClassData) := []
  fields : List (String × String × FieldData) := []
  associations : List (String × AssociationData) := []
deriving DecidableEq, Repr, Inhabited

def ParsedData.addType (pd : ParsedData) (id : String) (t : TypeData) : ParsedData :=
  { pd with types := (id, t) :: pd.types }

def ParsedData.addEnum (pd : ParsedData) (id : String) (e : EnumData) : ParsedData :=
  { pd with enums := (id, e) :: pd.enums }

def ParsedData.addClass (pd : ParsedData) (id : String) (c : ClassData) : ParsedData :=
  { pd with classes := (id, c) :: pd.classes }

def ParsedData.addField (pd : ParsedData) (classId id : String) (f : FieldData) : ParsedData :=
  { pd with fields := (classId, id, f) :: pd.fields }

def ParsedData.addAssociation (pd : ParsedData) (id : String) (a : AssociationData) : ParsedData :=
  { pd with associations := (id, a) :: pd.associations }

def emptyParsedData : ParsedData := {}

instance {ε α : Type} [DecidableEq ε] [DecidableEq α] : DecidableEq (Except ε α) := fun x y =>
  match x, y with
  | .ok a, .ok b =>
    if h : a = b then isTrue (by rw [h]) else isFalse (fun hh => by cases hh; exact h rfl)
  | .error a, .error b =>
    if h : a = b then isTrue (by rw [h]) else isFalse (fun hh => by cases hh; exact h rfl)
  | .ok _, .error _ => isFalse (fun hh => by cases hh)
  | .error _, .ok _ => isFalse (fun hh => by cases hh)

/-! ## Exceptions (`exception_factory`) -/

inductive ExceptionKind where
  | NullPointer
  | WrongType
  | WrongField
  | ReservedName
deriving DecidableEq, Repr, Inhabited

structure BuildException where
  kind : ExceptionKind
  message : String
deriving DecidableEq, Repr, Inhabited

/-! ## External collaborators -/

/-- The active database-type policy (`databaseTypes`): an allow-list
membership test for primitive type names and the canonical backend name
(`getName`). -/
structure DatabaseTypes where
  contains : String → Bool
  getName : String

/-- Modelled from the spec: the stateless helpers of `parser_helper` and
the reserved-word predicates behind the `jhipster_utils` checks are not
part of the parser module.  The spec describes them only abstractly (a
structural-identifier predicate, a class-label splitter, a
cross-reference type-name extractor, and three independent per-backend
reserved-word membership tests), so they are parameters here. -/
structure ParserEnv where
  isAnId : String → Bool
  entityNameOf : String → String
  tableNameOf : String → String
  getTypeNameFromURL : String → String
  isReservedClassName : String → Bool
  isReservedTableName : String → String → Bool
  isReservedFieldName : String → String → Bool

/-- Modelled from the spec: `checkForReservedClassName` of
`jhipster_utils` (called with `shouldThrow: true`) fails with
`ReservedName` when the class name collides with a backend reserved
word, carrying the offending name. -/
def checkForReservedClassName (env : ParserEnv) (name : String) :
    Except BuildException Unit :=
  if env.isReservedClassName name then
    .error ⟨.ReservedName,
      "The name \x27" ++ name ++ "\x27 is a reserved word and can not be used as a class name."⟩
  else .ok ()

/-- Modelled from the spec: `checkForReservedTableName` of
`jhipster_utils` fails with `ReservedName` when the table name collides
with a reserved word of the named backend. -/
def checkForReservedTableName (env : ParserEnv) (databaseTypeName name : String) :
    Except BuildException Unit :=
  if env.isReservedTableName databaseTypeName name then
    .error ⟨.ReservedName,
      "The name \x27" ++ name ++ "\x27 is a reserved word and can not be used as a table name."⟩
  else .ok ()

/-- Modelled from the spec: `checkForReservedFieldName` of
`jhipster_utils` fails with `ReservedName` when the field name collides
with a reserved word of the named backend. -/
def checkForReservedFieldName (env : ParserEnv) (databaseTypeName name : String) :
    Except BuildException Unit :=
  if env.isReservedFieldName databaseTypeName name then
    .error ⟨.ReservedName,
      "The name \x27" ++ name ++ "\x27 is a reserved word and can not be used as a field name."⟩
  else .ok ()

/-! ## The parser -/

namespace UMLDesignerParser

/-- Phase-1 buckets: index lists into `root.packagedElement`, in
document order (`findElements`). -/
structure Buckets where
  rawTypesIndexes : List Nat := []
  rawEnumsIndexes : List Nat := []
  rawClassesIndexes : List Nat := []
  rawAssociationsIndexes : List Nat := []
deriving DecidableEq, Repr, Inhabited

/-- The `switch` on `element.$[xmi:type]` inside `findElements`. -/
def classify (b : Buckets) (i : Nat) (el : Element) : Buckets :=
  if el.xmiType = "uml:PrimitiveType" ∨ el.xmiType = "uml:DataType" then
    { b with rawTypesIndexes := b.rawTypesIndexes ++ [i] }
  else if el.xmiType = "uml:Enumeration" then
    { b with rawEnumsIndexes := b.rawEnumsIndexes ++ [i] }
  else if el.xmiType = "uml:Class" then
    { b with rawClassesIndexes := b.rawClassesIndexes ++ [i] }
  else if el.xmiType = "uml:Association" then
    { b with rawAssociationsIndexes := b.rawAssociationsIndexes ++ [i] }
  else b

/-- `findElements`: one pass over `root.packagedElement`, bucketing each
element index by kind; unrecognized kinds fall through the `default`
case.  (`findConstraints` is a no-op for this tool.) -/
def findElements (root : List Element) : Buckets :=
  root.enum.foldl (fun b ie => classify b ie.1 ie.2) {}

/-- Dereference a bucket's indexes into `root.packagedElement`.
`findElements` only produces in-range indexes, so the `filterMap` drops
nothing on the `parse` path. -/
def elementsAt (root : List Element) (idxs : List Nat) : List Element :=
  idxs.filterMap (fun i => root.get? i)

/-- `addType`: reject a primitive type whose capitalized name is outside
the backend allow-list, else insert it keyed by `typeId`. -/
def addType (db : DatabaseTypes) (pd : ParsedData) (typeName typeId : String) :
    Except BuildException ParsedData :=
  if db.contains (upperFirst typeName) = false then
    .error ⟨.WrongType, "The type \x27" ++ typeName ++ "\x27 isn\x27t supported by JHipster."⟩
  else .ok (pd.addType typeId { name := upperFirst typeName })

/-- `fillTypes`: run `addType` over every type-bucket element. -/
def fillTypes (db : DatabaseTypes) (pd : ParsedData) :
    List Element → Except BuildException ParsedData
  | [] => .ok pd
  | el :: rest =>
    match addType db pd el.name el.xmiId with
    | .error e => .error e
    | .ok pd1 => fillTypes db pd1 rest

/-- The literal loop of `fillEnums`: upper-case each literal name in
order, failing with `NullPointer` on an empty one. -/
def literalValues : List Literal → Except BuildException (List String)
  | [] => .ok []
  | l :: rest =>
    if toUpperCase l.name = "" then
      .error ⟨.NullPointer, "The Enumeration\x27s values can\x27t be null."⟩
    else
      match literalValues rest with
      | .error e => .error e
      | .ok vs => .ok (toUpperCase l.name :: vs)

/-- The body of `fillEnums` for one enum-bucket element. -/
def fillEnum (pd : ParsedData) (e : Element) : Except BuildException ParsedData :=
  if e.name = "" then
    .error ⟨.NullPointer, "The enumeration\x27s name can\x27t be null."⟩
  else
    match e.ownedLiteral with
    | none => .ok (pd.addEnum e.xmiId { name := e.name, values := [] })
    | some lits =>
      match literalValues lits with
      | .error ex => .error ex
      | .ok vs => .ok (pd.addEnum e.xmiId { name := e.name, values := vs })

/-- `fillEnums`: run `fillEnum` over every enum-bucket element. -/
def fillEnums (pd : ParsedData) : List Element → Except BuildException ParsedData
  | [] => .ok pd
  | el :: rest =>
    match fillEnum pd el with
    | .error e => .error e
    | .ok pd1 => fillEnums pd1 rest

/-- `addRegularField`: reserved-name check, then type resolution
(inline `$.type` verbatim; else cross-reference via
`getTypeNameFromURL`, registered as a type with id = name; else
`WrongField`), then the optional comment, then insertion. -/
def addRegularField (env : ParserEnv) (db : DatabaseTypes)
    (element : Attribute) (classId : String) (pd : ParsedData) :
    Except BuildException ParsedData :=
  match checkForReservedFieldName env db.getName element.name with
  | .error e => .error e
  | .ok _ =>
    if jsTruthy element.typeAttr then
      .ok (pd.addField classId element.xmiId
        { name := lowerFirst element.name
          type := element.typeAttr.getD ""
          comment := element.ownedComment })
    else
      match element.typeElement with
      | none =>
        .error ⟨.WrongField,
          "The field \x27" ++ element.name ++ "\x27 does not possess any type."⟩
      | some href =>
        match addType db pd (upperFirst (env.getTypeNameFromURL href))
            (upperFirst (env.getTypeNameFromURL href)) with
        | .error e => .error e
        | .ok pd1 =>
          .ok (pd1.addField classId element.xmiId
            { name := lowerFirst element.name
              type := upperFirst (env.getTypeNameFromURL href)
              comment := element.ownedComment })

/-- `addField` just forwards to `addRegularField`. -/
def addField (env : ParserEnv) (db : DatabaseTypes)
    (element : Attribute) (classId : String) (pd : ParsedData) :
    Except BuildException ParsedData :=
  addRegularField env db element classId pd

/-- The body of `handleAttributes` for one owned attribute: unnamed
attributes are a `NullPointer` failure; attributes matching the
structural-identifier convention are skipped; the rest are added. -/
def handleAttribute (env : ParserEnv) (db : DatabaseTypes)
    (className classId : String) (pd : ParsedData) (a : Attribute) :
    Except BuildException ParsedData :=
  if a.name = "" then
    .error ⟨.NullPointer,
      "No name is defined for the passed attribute, for class \x27" ++ className ++ "\x27."⟩
  else if env.isAnId a.name then .ok pd
  else addField env db a classId pd

/-- `handleAttributes`: the loop over `element.ownedAttribute`. -/
def handleAttributes (env : ParserEnv) (db : DatabaseTypes)
    (className classId : String) (pd : ParsedData) :
    List Attribute → Except BuildException ParsedData
  | [] => .ok pd
  | a :: rest =>
    match handleAttribute env db className classId pd a with
    | .error e => .error e
    | .ok pd1 => handleAttributes env db className classId pd1 rest

/-- `addClass`: split the raw label into entity and table names,
run both reserved-word checks, attach the optional comment, insert. -/
def addClass (env : ParserEnv) (db : DatabaseTypes) (element : Element)
    (pd : ParsedData) : Except BuildException ParsedData :=
  match checkForReservedClassName env (upperFirst (env.entityNameOf element.name)) with
  | .error e => .error e
  | .ok _ =>
    match checkForReservedTableName env db.getName (env.tableNameOf element.name) with
    | .error e => .error e
    | .ok _ =>
      .ok (pd.addClass element.xmiId
        { name := upperFirst (env.entityNameOf element.name)
          tableName := env.tableNameOf element.name
          comment := element.ownedComment })

/-- The scan state shared across the classes-and-fields phase:
the model under construction and the designated user-class id. -/
structure ParserState where
  parsedData : ParsedData := {}
  userClassId : Option String := none
deriving DecidableEq, Repr, Inhabited

/-- `checkForUserClass`: record the first class literally named `user`
(case-insensitively). -/
def checkForUserClass (st : ParserState) (element : Element) : ParserState :=
  if st.userClassId = none ∧ toLowerCase element.name = "user" then
    { st with userClassId := some element.xmiId }
  else st

/-- The body of `fillClassesAndFields` for one class-bucket element. -/
def fillClassAndFields (env : ParserEnv) (db : DatabaseTypes)
    (st : ParserState) (element : Element) : Except BuildException ParserState :=
  if element.name = "" then
    .error ⟨.NullPointer, "Classes must have a name."⟩
  else
    let st1 := checkForUserClass st element
    match addClass env db element st1.parsedData with
    | .error e => .error e
    | .ok pd =>
      match element.ownedAttribute with
      | none => .ok { st1 with parsedData := pd }
      | some attrs =>
        match handleAttributes env db element.name element.xmiId pd attrs with
        | .error e => .error e
        | .ok pd1 => .ok { st1 with parsedData := pd1 }

/-- `fillClassesAndFields`: the loop over the class bucket. -/
def fillClassesAndFields (env : ParserEnv) (db : DatabaseTypes)
    (st : ParserState) : List Element → Except BuildException ParserState
  | [] => .ok st
  | el :: rest =>
    match fillClassAndFields env db st el with
    | .error e => .error e
    | .ok st1 => fillClassesAndFields env db st1 rest

/-- The association payload built inside `fillAssociations`:
ends cross-assign the injected field names, non-zero lower bounds set
the required flags, the two upper bounds derive the cardinality, and a
comment is duplicated onto both sides. -/
def associationDataOf (a : Element) : AssociationData :=
  { from_ := a.ownedEnd0.type
    to_ := a.ownedEnd1.type
    injectedFieldInFrom := a.ownedEnd1.name
    injectedFieldInTo := a.ownedEnd0.name
    isInjectedFieldInFromRequired := if a.ownedEnd0.lowerValue ≠ "0" then true else false
    isInjectedFieldInToRequired := if a.ownedEnd1.lowerValue ≠ "0" then true else false
    type :=
      if a.ownedEnd1.upperValue = "*" ∧ a.ownedEnd0.upperValue = "*" then
        .MANY_TO_MANY
      else if a.ownedEnd1.upperValue = "*" ∧ a.ownedEnd0.upperValue ≠ "*" then
        .ONE_TO_MANY
      else if a.ownedEnd1.upperValue ≠ "*" ∧ a.ownedEnd0.upperValue = "*" then
        .MANY_TO_ONE
      else .ONE_TO_ONE
    commentInFrom := a.ownedComment
    commentInTo := a.ownedComment }

/-- `fillAssociations`: insert the payload of every association-bucket
element; this phase never fails. -/
def fillAssociations (pd : ParsedData) : List Element → ParsedData
  | [] => pd
  | a :: rest => fillAssociations (pd.addAssociation a.xmiId (associationDataOf a)) rest

/-- `parse`: the five fixed phases over a raw document, starting from a
fresh empty model and no designated user class. -/
def parse (env : ParserEnv) (db : DatabaseTypes) (root : List Element) :
    Except BuildException ParsedData :=
  let b := findElements root
  match fillTypes db emptyParsedData (elementsAt root b.rawTypesIndexes) with
  | .error e => .error e
  | .ok pd0 =>
    match fillEnums pd0 (elementsAt root b.rawEnumsIndexes) with
    | .error e => .error e
    | .ok pd1 =>
      match fillClassesAndFields env db { parsedData := pd1 }
          (elementsAt root b.rawClassesIndexes) with
      | .error e => .error e
      | .ok st =>
        .ok (fillAssociations st.parsedData (elementsAt root b.rawAssociationsIndexes))

end UMLDesignerParser

/-! ## Concrete fixtures

A sample environment and documents used to instantiate the theorems
below on concrete inputs.  The reserved-word sets and helper functions
are one admissible instance of the abstract policy. -/

open UMLDesignerParser

def testEnv : ParserEnv :=
  { isAnId := fun n => toLowerCase n == "id"
    entityNameOf := fun s => s
    tableNameOf := fun s => toLowerCase s
    getTypeNameFromURL := fun s => s
    isReservedClassName := fun n => n == "Authority"
    isReservedTableName := fun dbn n => dbn == "sql" && n == "user"
    isReservedFieldName := fun _ n => n == "table" || n == "id" }

def sqlPolicy : DatabaseTypes :=
  { contains := fun n => n == "String" || n == "Integer"
    getName := "sql" }

/-- An association element with the given lower and upper bounds on its
two ends. -/
def mkAssoc (l0 u0 l1 u1 : String) : Element :=
  { xmiType := "uml:Association"
    xmiId := "a1"
    ownedEnd0 := { type := "cA", name := "roleA", lowerValue := l0, upperValue := u0 }
    ownedEnd1 := { type := "cB", name := "roleB", lowerValue := l1, upperValue := u1 } }

def assocWithComment : Element :=
  { mkAssoc "0" "1" "0" "1" with ownedComment := some "a note" }

def enumStatus : Element :=
  { xmiType := "uml:Enumeration"
    name := "Status"
    xmiId := "e1"
    ownedLiteral := some [{ name := "active" }, { name := "inactive" }] }

def attrInline : Attribute := { name := "name", xmiId := "f1", typeAttr := some "string" }

def attrAge : Attribute := { name := "age", xmiId := "f2" }

def attrTable : Attribute := { name := "table", xmiId := "f3" }

def attrTableUpper : Attribute := { name := "Table", xmiId := "f4", typeAttr := some "string" }

def attrId : Attribute := { name := "id", xmiId := "f0" }

def classCustomer : Element :=
  { xmiType := "uml:Class"
    name := "Customer"
    xmiId := "c1"
    ownedAttribute := some [attrId, attrInline] }

def classAuthority : Element :=
  { xmiType := "uml:Class", name := "Authority", xmiId := "c2" }

def classUser : Element :=
  { xmiType := "uml:Class", name := "User", xmiId := "c3" }

def typeString : Element :=
  { xmiType := "uml:PrimitiveType", name := "string", xmiId := "t1" }

def doc0 : List Element := [classCustomer, typeString, enumStatus, mkAssoc "0" "*" "1" "1"]

/-! ## Helper lemmas -/

theorem literalValues_ok_eq (lits : List Literal) (vs : List String)
    (h : literalValues lits = .ok vs) :
    vs = lits.map (fun l => toUpperCase l.name) := by
  induction lits generalizing vs with
  | nil =>
    simp only [literalValues] at h
    cases h
    rfl
  | cons l rest ih =>
    unfold literalValues at h
    by_cases hl : toUpperCase l.name = ""
    · rw [if_pos hl] at h
      cases h
    · rw [if_neg hl] at h
      cases hr : literalValues rest with
      | error ex => rw [hr] at h; cases h
      | ok vs0 =>
        rw [hr] at h
        cases h
        simp [ih vs0 hr]

theorem literalValues_error_kind (lits : List Literal) (ex : BuildException)
    (h : literalValues lits = .error ex) : ex.kind = .NullPointer := by
  induction lits with
  | nil => simp [literalValues] at h
  | cons l rest ih =>
    unfold literalValues at h
    by_cases hl : toUpperCase l.name = ""
    · rw [if_pos hl] at h
      cases h
      rfl
    · rw [if_neg hl] at h
      cases hr : literalValues rest with
      | error ex0 =>
        rw [hr] at h
        cases h
        exact ih hr
      | ok vs0 => rw [hr] at h; cases h

theorem literalValues_bad (lits : List Literal)
    (h : ∃ l ∈ lits, l.name = "") :
    ∃ m, literalValues lits = .error ⟨.NullPointer, m⟩ := by
  induction lits with
  | nil => simp at h
  | cons l rest ih =>
    by_cases hl : toUpperCase l.name = ""
    · exact ⟨_, by rw [literalValues, if_pos hl]⟩
    · have hmem : ∃ x ∈ rest, x.name = "" := by
        obtain ⟨x, hx, hx0⟩ := h
        rcases List.mem_cons.mp hx with h1 | h1
        · exfalso
          apply hl
          rw [h1] at hx0
          rw [hx0]
          rfl
        · exact ⟨x, h1, hx0⟩
      obtain ⟨m, hm⟩ := ih hmem
      exact ⟨m, by rw [literalValues, if_neg hl, hm]⟩

theorem fillEnum_ok_enums (pd : ParsedData) (e : Element) (pd' : ParsedData)
    (h : fillEnum pd e = .ok pd') :
    pd'.enums =
      (e.xmiId,
        ({ name := e.name,
           values := (e.ownedLiteral.getD []).map (fun l => toUpperCase l.name) } : EnumData))
        :: pd.enums := by
  unfold fillEnum at h
  split at h
  · cases h
  · split at h
    next ho =>
      cases h
      simp [ParsedData.addEnum, ho]
    next lits ho =>
      split at h
      · cases h
      next vs hv =>
        cases h
        simp [ParsedData.addEnum, ho, literalValues_ok_eq lits vs hv]

theorem fillEnum_error_kind (pd : ParsedData) (e : Element) (ex : BuildException)
    (h : fillEnum pd e = .error ex) : ex.kind = .NullPointer := by
  unfold fillEnum at h
  split at h
  · cases h
    rfl
  · split at h
    · cases h
    next lits ho =>
      split at h
      next ex0 hv =>
        cases h
        exact literalValues_error_kind lits ex hv
      · cases h

theorem fillEnum_bad (pd : ParsedData) (e : Element)
    (h : e.name = "" ∨ ∃ lits, e.ownedLiteral = some lits ∧ ∃ l ∈ lits, l.name = "") :
    ∃ m, fillEnum pd e = .error ⟨.NullPointer, m⟩ := by
  rcases h with h | ⟨lits, hlits, hbad⟩
  · exact ⟨_, by rw [fillEnum, if_pos h]⟩
  · by_cases hn : e.name = ""
    · exact ⟨_, by rw [fillEnum, if_pos hn]⟩
    · obtain ⟨m, hm⟩ := literalValues_bad lits hbad
      refine ⟨m, ?_⟩
      unfold fillEnum
      rw [if_neg hn, hlits]
      simp [hm]

theorem fillEnums_enums_mono (es : List Element) (pd pd' : ParsedData)
    (h : fillEnums pd es = .ok pd') : ∀ x ∈ pd.enums, x ∈ pd'.enums := by
  induction es generalizing pd with
  | nil =>
    simp only [fillEnums] at h
    cases h
    exact fun x hx => hx
  | cons hd rest ih =>
    unfold fillEnums at h
    split at h
    · cases h
    next pd1 hf =>
      intro x hx
      exact ih pd1 h x
        (by rw [fillEnum_ok_enums pd hd pd1 hf]; exact List.mem_cons_of_mem _ hx)

theorem fillEnums_ok_mem (es : List Element) (pd pd' : ParsedData)
    (h : fillEnums pd es = .ok pd') :
    ∀ e ∈ es,
      (e.xmiId,
        ({ name := e.name,
           values := (e.ownedLiteral.getD []).map (fun l => toUpperCase l.name) } : EnumData))
        ∈ pd'.enums := by
  induction es generalizing pd with
  | nil => intro e he; cases he
  | cons hd rest ih =>
    intro e he
    unfold fillEnums at h
    split at h
    · cases h
    next pd1 hf =>
      rcases List.mem_cons.mp he with h1 | h1
      · subst h1
        exact fillEnums_enums_mono rest pd1 pd' h _
          (by rw [fillEnum_ok_enums pd e pd1 hf]; exact List.mem_cons_self _ _)
      · exact ih pd1 h e h1

theorem fillEnums_bad (es : List Element) (pd : ParsedData) :
    ∀ e ∈ es,
      (e.name = "" ∨ ∃ lits, e.ownedLiteral = some lits ∧ ∃ l ∈ lits, l.name = "") →
      ∃ m, fillEnums pd es = .error ⟨.NullPointer, m⟩ := by
  induction es generalizing pd with
  | nil => intro e he; cases he
  | cons hd rest ih =>
    intro e he hbad
    rcases List.mem_cons.mp he with h1 | h1
    · subst h1
      obtain ⟨m, hm⟩ := fillEnum_bad pd e hbad
      refine ⟨m, ?_⟩
      unfold fillEnums
      rw [hm]
    · cases hf : fillEnum pd hd with
      | error ex =>
        refine ⟨ex.message, ?_⟩
        have hk := fillEnum_error_kind pd hd ex hf
        unfold fillEnums
        rw [hf]
        cases ex
        simp_all
      | ok pd1 =>
        obtain ⟨m, hm⟩ := ih pd1 e h1 hbad
        refine ⟨m, ?_⟩
        unfold fillEnums
        rw [hf]
        exact hm

theorem addType_fields_eq (db : DatabaseTypes) (pd : ParsedData) (tn ti : String)
    (pd' : ParsedData) (h : addType db pd tn ti = .ok pd') : pd'.fields = pd.fields := by
  unfold addType at h
  by_cases hc : db.contains (upperFirst tn) = false
  · rw [if_pos hc] at h; cases h
  · rw [if_neg hc] at h
    cases h
    rfl

theorem addRegularField_ok_fields (env : ParserEnv) (db : DatabaseTypes)
    (a : Attribute) (classId : String) (pd pd' : ParsedData)
    (h : addRegularField env db a classId pd = .ok pd') :
    ∃ fd, pd'.fields = (classId, a.xmiId, fd) :: pd.fields := by
  unfold addRegularField at h
  split at h
  · cases h
  · split at h
    · cases h
      exact ⟨_, rfl⟩
    · split at h
      · cases h
      next href he =>
        split at h
        · cases h
        next pd1 hadd =>
          cases h
          refine ⟨{ name := lowerFirst a.name,
                    type := upperFirst (env.getTypeNameFromURL href),
                    comment := a.ownedComment }, ?_⟩
          simp [ParsedData.addField,
            addType_fields_eq db pd (upperFirst (env.getTypeNameFromURL href))
              (upperFirst (env.getTypeNameFromURL href)) pd1 hadd]

theorem handleAttribute_ok_fields (env : ParserEnv) (db : DatabaseTypes)
    (className classId : String) (pd : ParsedData) (a : Attribute) (pd' : ParsedData)
    (h : handleAttribute env db className classId pd a = .ok pd') :
    pd'.fields = pd.fields ∨
      (env.isAnId a.name = false ∧
        ∃ fd, pd'.fields = (classId, a.xmiId, fd) :: pd.fields) := by
  unfold handleAttribute at h
  by_cases hn : a.name = ""
  · rw [if_pos hn] at h; cases h
  · rw [if_neg hn] at h
    by_cases hid : env.isAnId a.name
    · rw [if_pos hid] at h
      cases h
      exact Or.inl rfl
    · rw [if_neg hid] at h
      exact Or.inr ⟨by simpa using hid,
        addRegularField_ok_fields env db a classId pd pd' h⟩

/-! ## Claim theorems -/

/-- C1 (counterexample): the claim maps end bounds to the opposite
required flag; the code maps them to the same-indexed flag.  At an
association whose end 0 has lower bound 1 and end 1 has lower bound 0,
the non-zero lower bound of end 0 does not set
`isInjectedFieldInToRequired` (it sets `isInjectedFieldInFromRequired`
instead), refuting the claim at this input. -/
theorem c1_counterexample :
    (mkAssoc "1" "*" "0" "1").ownedEnd0.lowerValue ≠ "0" ∧
    (associationDataOf (mkAssoc "1" "*" "0" "1")).isInjectedFieldInToRequired = false ∧
    (associationDataOf (mkAssoc "1" "*" "0" "1")).isInjectedFieldInFromRequired = true := by
  decide

/-- C1 (amended): a non-zero lower bound on end 0 sets
`isInjectedFieldInFromRequired`, a non-zero lower bound on end 1 sets
`isInjectedFieldInToRequired`, and a lower bound equal to 0 leaves the
corresponding flag unset. -/
theorem c1_required_flags_same_end (a : Element) :
    (a.ownedEnd0.lowerValue ≠ "0" →
      (associationDataOf a).isInjectedFieldInFromRequired = true) ∧
    (a.ownedEnd1.lowerValue ≠ "0" →
      (associationDataOf a).isInjectedFieldInToRequired = true) ∧
    (a.ownedEnd0.lowerValue = "0" →
      (associationDataOf a).isInjectedFieldInFromRequired = false) ∧
    (a.ownedEnd1.lowerValue = "0" →
      (associationDataOf a).isInjectedFieldInToRequired = false) := by
  refine ⟨?_, ?_, ?_, ?_⟩ <;> intro h <;> simp [associationDataOf, h]

/-- C1 (witness): the amended statement evaluated on the
counterexample association. -/
theorem c1_required_flags_same_end_witness :
    (mkAssoc "1" "*" "0" "1").ownedEnd0.lowerValue ≠ "0" ∧
    (associationDataOf (mkAssoc "1" "*" "0" "1")).isInjectedFieldInFromRequired = true ∧
    (mkAssoc "1" "*" "0" "1").ownedEnd1.lowerValue = "0" ∧
    (associationDataOf (mkAssoc "1" "*" "0" "1")).isInjectedFieldInToRequired = false :=
  ⟨by decide, (c1_required_flags_same_end _).1 (by decide), by decide,
    (c1_required_flags_same_end _).2.2.2 (by decide)⟩

/-- C2 (counterexample): an attribute named `name` with inline type
attribute `string` yields a field whose type is the uncanonicalized
string `string`, not `String`: the inline type attribute is stored
verbatim, refuting the claimed capitalization at this input. -/
theorem c2_counterexample :
    addRegularField testEnv sqlPolicy attrInline "c1" emptyParsedData =
      .ok (emptyParsedData.addField "c1" "f1" { name := "name", type := "string" }) ∧
    "string" ≠ "String" := by
  decide

/-- C2 (amended): for every attribute carrying a non-empty inline type
attribute (and a non-reserved name), the inserted field stores the
inline type value verbatim; no capitalization is applied on this
branch. -/
theorem c2_inline_type_verbatim (env : ParserEnv) (db : DatabaseTypes)
    (a : Attribute) (classId : String) (pd : ParsedData) (t : String)
    (hres : env.isReservedFieldName db.getName a.name = false)
    (ht : a.typeAttr = some t) (hne : t ≠ "") :
    addRegularField env db a classId pd =
      .ok (pd.addField classId a.xmiId
        { name := lowerFirst a.name, type := t, comment := a.ownedComment }) := by
  simp [addRegularField, checkForReservedFieldName, hres, ht, jsTruthy, hne]

/-- C2 (witness): the amended statement evaluated on the
counterexample attribute. -/
theorem c2_inline_type_verbatim_witness :
    testEnv.isReservedFieldName sqlPolicy.getName attrInline.name = false ∧
    attrInline.typeAttr = some "string" ∧ "string" ≠ "" ∧
    addRegularField testEnv sqlPolicy attrInline "c1" emptyParsedData =
      .ok (emptyParsedData.addField "c1" attrInline.xmiId
        { name := lowerFirst attrInline.name, type := "string",
          comment := attrInline.ownedComment }) :=
  ⟨by decide, by decide, by decide,
    c2_inline_type_verbatim testEnv sqlPolicy attrInline "c1" emptyParsedData "string"
      (by decide) (by decide) (by decide)⟩

/-- C3 (confirmed): cardinality derivation from the two upper bounds is
total and deterministic: both `*` gives MANY_TO_MANY, only end 1 `*`
gives ONE_TO_MANY, only end 0 `*` gives MANY_TO_ONE, neither gives
ONE_TO_ONE, and every association payload carries exactly one of the
four cardinalities. -/
theorem c3_cardinality_derivation (a : Element) :
    ((a.ownedEnd0.upperValue = "*" ∧ a.ownedEnd1.upperValue = "*") →
      (associationDataOf a).type = Cardinality.MANY_TO_MANY) ∧
    ((a.ownedEnd1.upperValue = "*" ∧ a.ownedEnd0.upperValue ≠ "*") →
      (associationDataOf a).type = Cardinality.ONE_TO_MANY) ∧
    ((a.ownedEnd0.upperValue = "*" ∧ a.ownedEnd1.upperValue ≠ "*") →
      (associationDataOf a).type = Cardinality.MANY_TO_ONE) ∧
    ((a.ownedEnd0.upperValue ≠ "*" ∧ a.ownedEnd1.upperValue ≠ "*") →
      (associationDataOf a).type = Cardinality.ONE_TO_ONE) ∧
    ((associationDataOf a).type = Cardinality.MANY_TO_MANY ∨
      (associationDataOf a).type = Cardinality.ONE_TO_MANY ∨
      (associationDataOf a).type = Cardinality.MANY_TO_ONE ∨
      (associationDataOf a).type = Cardinality.ONE_TO_ONE) := by
  refine ⟨?_, ?_, ?_, ?_, ?_⟩
  · rintro ⟨h0, h1⟩; simp [associationDataOf, h0, h1]
  · rintro ⟨h1, h0⟩; simp [associationDataOf, h0, h1]
  · rintro ⟨h0, h1⟩; simp [associationDataOf, h0, h1]
  · rintro ⟨h0, h1⟩; simp [associationDataOf, h0, h1]
  · rcases h : (associationDataOf a).type <;> simp

/-- C3 (witness): the derivation evaluated on an association with both
upper bounds unbounded. -/
theorem c3_cardinality_derivation_witness :
    (mkAssoc "0" "*" "0" "*").ownedEnd0.upperValue = "*" ∧
    (mkAssoc "0" "*" "0" "*").ownedEnd1.upperValue = "*" ∧
    (associationDataOf (mkAssoc "0" "*" "0" "*")).type = Cardinality.MANY_TO_MANY :=
  ⟨by decide, by decide,
    (c3_cardinality_derivation (mkAssoc "0" "*" "0" "*")).1 ⟨by decide, by decide⟩⟩

/-- C9 (confirmed): an association comment is duplicated onto both
sides — `commentInTo` always equals `commentInFrom`; without a comment
neither side is set. -/
theorem c9_comment_duplication (a : Element) :
    (∀ c, a.ownedComment = some c →
      (associationDataOf a).commentInFrom = some c ∧
      (associationDataOf a).commentInTo = (associationDataOf a).commentInFrom) ∧
    (a.ownedComment = none →
      (associationDataOf a).commentInFrom = none ∧
      (associationDataOf a).commentInTo = none) := by
  constructor
  · intro c h; simp [associationDataOf, h]
  · intro h; simp [associationDataOf, h]

/-- C9 (witness): the duplication evaluated on an association carrying
a comment. -/
theorem c9_comment_duplication_witness :
    assocWithComment.ownedComment = some "a note" ∧
    (associationDataOf assocWithComment).commentInFrom = some "a note" ∧
    (associationDataOf assocWithComment).commentInTo =
      (associationDataOf assocWithComment).commentInFrom :=
  ⟨by decide, (c9_comment_duplication assocWithComment).1 "a note" (by decide)⟩

/-- C10 (confirmed): a named attribute matching the
structural-identifier convention is skipped before any validation:
`handleAttribute` returns the model unchanged for every environment, in
particular for ones where the name is a reserved field word or the
attribute has no type, so it can never raise ReservedName or
WrongField. -/
theorem c10_id_attribute_skipped (env : ParserEnv) (db : DatabaseTypes)
    (className classId : String) (pd : ParsedData) (a : Attribute)
    (h1 : a.name ≠ "") (h2 : env.isAnId a.name = true) :
    handleAttribute env db className classId pd a = .ok pd := by
  simp [handleAttribute, h1, h2]

/-- C10 (witness): the skip evaluated on the attribute `id`, whose name
is reserved under the sample policy and which has no type at all. -/
theorem c10_id_attribute_skipped_witness :
    attrId.name ≠ "" ∧ testEnv.isAnId attrId.name = true ∧
    testEnv.isReservedFieldName sqlPolicy.getName attrId.name = true ∧
    attrId.typeAttr = none ∧ attrId.typeElement = none ∧
    handleAttribute testEnv sqlPolicy "Customer" "c1" emptyParsedData attrId =
      .ok emptyParsedData :=
  ⟨by decide, by decide, by decide, by decide, by decide,
    c10_id_attribute_skipped testEnv sqlPolicy "Customer" "c1" emptyParsedData attrId
      (by decide) (by decide)⟩

/-- C6 (counterexample): the reserved-name check runs before type
resolution, so a typeless attribute whose name is a reserved field word
fails with ReservedName, not WrongField, refuting the claimed
universality of WrongField at this input. -/
theorem c6_counterexample :
    attrTable.name ≠ "" ∧ testEnv.isAnId attrTable.name = false ∧
    attrTable.typeAttr = none ∧ attrTable.typeElement = none ∧
    handleAttribute testEnv sqlPolicy "Customer" "c1" emptyParsedData attrTable =
      .error ⟨.ReservedName,
        "The name \x27table\x27 is a reserved word and can not be used as a field name."⟩ ∧
    ExceptionKind.ReservedName ≠ ExceptionKind.WrongField := by
  decide

/-- C6 (amended): a named, non-structural-identifier attribute whose
name is not a reserved field word and which has neither an inline type
attribute nor a cross-reference type element always fails with
WrongField, and the message names the offending field. -/
theorem c6_wrong_field (env : ParserEnv) (db : DatabaseTypes)
    (className classId : String) (pd : ParsedData) (a : Attribute)
    (h1 : a.name ≠ "") (h2 : env.isAnId a.name = false)
    (h3 : env.isReservedFieldName db.getName a.name = false)
    (h4 : a.typeAttr = none) (h5 : a.typeElement = none) :
    handleAttribute env db className classId pd a =
      .error ⟨.WrongField,
        "The field \x27" ++ a.name ++ "\x27 does not possess any type."⟩ := by
  simp [handleAttribute, addField, addRegularField, checkForReservedFieldName,
    jsTruthy, h1, h2, h3, h4, h5]

/-- C6 (witness): the amended statement evaluated on the typeless,
non-reserved attribute `age`. -/
theorem c6_wrong_field_witness :
    attrAge.name ≠ "" ∧ testEnv.isAnId attrAge.name = false ∧
    testEnv.isReservedFieldName sqlPolicy.getName attrAge.name = false ∧
    attrAge.typeAttr = none ∧ attrAge.typeElement = none ∧
    handleAttribute testEnv sqlPolicy "Customer" "c1" emptyParsedData attrAge =
      .error ⟨.WrongField,
        "The field \x27" ++ attrAge.name ++ "\x27 does not possess any type."⟩ :=
  ⟨by decide, by decide, by decide, by decide, by decide,
    c6_wrong_field testEnv sqlPolicy "Customer" "c1" emptyParsedData attrAge
      (by decide) (by decide) (by decide) (by decide) (by decide)⟩

/-- C7 (counterexample): the field check runs on the raw attribute name
before lower-first canonicalization, so an attribute named Table —
whose canonical field name table is a reserved word under a
case-sensitive policy — is inserted successfully instead of failing
with ReservedName, refuting the canonical-name reading of the claim at
this input. -/
theorem c7_counterexample :
    testEnv.isReservedFieldName sqlPolicy.getName (lowerFirst attrTableUpper.name) = true ∧
    testEnv.isReservedFieldName sqlPolicy.getName attrTableUpper.name = false ∧
    addRegularField testEnv sqlPolicy attrTableUpper "c1" emptyParsedData =
      .ok (emptyParsedData.addField "c1" "f4" { name := "table", type := "string" }) := by
  decide

/-- C7 (amended): a reserved canonical class name, a reserved table
name, or a reserved raw field name (the attribute name as written in
the document, before lower-first canonicalization) each independently
make the corresponding insertion fail with ReservedName, for every
backend policy. -/
theorem c7_reserved_names (env : ParserEnv) (db : DatabaseTypes)
    (el : Element) (a : Attribute) (classId : String) (pd : ParsedData) :
    (env.isReservedClassName (upperFirst (env.entityNameOf el.name)) = true →
      ∃ m, addClass env db el pd = .error ⟨.ReservedName, m⟩) ∧
    (env.isReservedTableName db.getName (env.tableNameOf el.name) = true →
      ∃ m, addClass env db el pd = .error ⟨.ReservedName, m⟩) ∧
    (env.isReservedFieldName db.getName a.name = true →
      ∃ m, addRegularField env db a classId pd = .error ⟨.ReservedName, m⟩) := by
  refine ⟨?_, ?_, ?_⟩
  · intro h
    exact ⟨"The name \x27" ++ upperFirst (env.entityNameOf el.name) ++
        "\x27 is a reserved word and can not be used as a class name.",
      by simp [addClass, checkForReservedClassName, h]⟩
  · intro h
    by_cases hc : env.isReservedClassName (upperFirst (env.entityNameOf el.name)) = true
    · exact ⟨"The name \x27" ++ upperFirst (env.entityNameOf el.name) ++
          "\x27 is a reserved word and can not be used as a class name.",
        by simp [addClass, checkForReservedClassName, hc]⟩
    · simp only [Bool.not_eq_true] at hc
      exact ⟨"The name \x27" ++ env.tableNameOf el.name ++
          "\x27 is a reserved word and can not be used as a table name.",
        by simp [addClass, checkForReservedClassName, checkForReservedTableName, hc, h]⟩
  · intro h
    exact ⟨"The name \x27" ++ a.name ++
        "\x27 is a reserved word and can not be used as a field name.",
      by simp [addRegularField, checkForReservedFieldName, h]⟩

/-- C7 (witness): the three checks evaluated on a reserved class name,
a reserved table name, and a reserved field name under the sample
policy. -/
theorem c7_reserved_names_witness :
    (testEnv.isReservedClassName (upperFirst (testEnv.entityNameOf classAuthority.name)) = true ∧
      ∃ m, addClass testEnv sqlPolicy classAuthority emptyParsedData =
        .error ⟨.ReservedName, m⟩) ∧
    (testEnv.isReservedTableName sqlPolicy.getName (testEnv.tableNameOf classUser.name) = true ∧
      ∃ m, addClass testEnv sqlPolicy classUser emptyParsedData =
        .error ⟨.ReservedName, m⟩) ∧
    (testEnv.isReservedFieldName sqlPolicy.getName attrTable.name = true ∧
      ∃ m, addRegularField testEnv sqlPolicy attrTable "c1" emptyParsedData =
        .error ⟨.ReservedName, m⟩) :=
  ⟨⟨by decide,
      (c7_reserved_names testEnv sqlPolicy classAuthority attrTable "c1" emptyParsedData).1
        (by decide)⟩,
    ⟨by decide,
      (c7_reserved_names testEnv sqlPolicy classUser attrTable "c1" emptyParsedData).2.1
        (by decide)⟩,
    ⟨by decide,
      (c7_reserved_names testEnv sqlPolicy classAuthority attrTable "c1" emptyParsedData).2.2
        (by decide)⟩⟩

/-- C4 (confirmed): the enum phase fails with NullPointer whenever a
bucketed enumeration is unnamed or one of its literals lacks a name;
for every accepted enumeration the inserted values are the upper-cased
literal names in input order. -/
theorem c4_enum_phase (es : List Element) (pd : ParsedData) (e : Element)
    (he : e ∈ es) :
    ((e.name = "" ∨ ∃ lits, e.ownedLiteral = some lits ∧ ∃ l ∈ lits, l.name = "") →
      ∃ m, fillEnums pd es = .error ⟨.NullPointer, m⟩) ∧
    (∀ pd', fillEnums pd es = .ok pd' →
      (e.xmiId,
        ({ name := e.name,
           values := (e.ownedLiteral.getD []).map (fun l => toUpperCase l.name) } : EnumData))
        ∈ pd'.enums) :=
  ⟨fillEnums_bad es pd e he, fun pd' h => fillEnums_ok_mem es pd pd' h e he⟩

/-- C4 (witness): the enum phase evaluated on an enumeration named
Status with literals active and inactive, yielding the ordered
upper-cased values. -/
theorem c4_enum_phase_witness :
    enumStatus ∈ [enumStatus] ∧
    fillEnums emptyParsedData [enumStatus] =
      .ok (emptyParsedData.addEnum "e1" { name := "Status", values := ["ACTIVE", "INACTIVE"] }) ∧
    ("e1", ({ name := "Status", values := ["ACTIVE", "INACTIVE"] } : EnumData)) ∈
      (emptyParsedData.addEnum "e1" { name := "Status", values := ["ACTIVE", "INACTIVE"] }).enums :=
  ⟨by decide, by decide,
    (c4_enum_phase [enumStatus] emptyParsedData enumStatus (by decide)).2
      (emptyParsedData.addEnum "e1" { name := "Status", values := ["ACTIVE", "INACTIVE"] })
      (by decide)⟩

/-- C5 (confirmed): every field present after the attribute loop either
was already in the model or originates from an attribute that does not
match the structural-identifier convention — so an attribute matching
the convention contributes no field, wherever it appears in the
attribute list. -/
theorem c5_id_attributes_excluded (env : ParserEnv) (db : DatabaseTypes)
    (className classId : String) (attrs : List Attribute) (pd pd' : ParsedData)
    (h : handleAttributes env db className classId pd attrs = .ok pd') :
    ∀ x ∈ pd'.fields,
      x ∈ pd.fields ∨
        ∃ a, a ∈ attrs ∧ env.isAnId a.name = false ∧ x.2.1 = a.xmiId ∧ x.1 = classId := by
  induction attrs generalizing pd with
  | nil =>
    simp only [handleAttributes] at h
    cases h
    exact fun x hx => Or.inl hx
  | cons a rest ih =>
    unfold handleAttributes at h
    split at h
    · cases h
    next pd1 hf =>
      intro x hx
      rcases ih pd1 h x hx with h1 | ⟨a0, ha0, hid, hx1, hx2⟩
      · rcases handleAttribute_ok_fields env db className classId pd a pd1 hf with
          h2 | ⟨hid, fd, h2⟩
        · rw [h2] at h1
          exact Or.inl h1
        · rw [h2] at h1
          rcases List.mem_cons.mp h1 with h3 | h3
          · subst h3
            exact Or.inr ⟨a, List.mem_cons_self _ _, hid, rfl, rfl⟩
          · exact Or.inl h3
      · exact Or.inr ⟨a0, List.mem_cons_of_mem _ ha0, hid, hx1, hx2⟩

/-- C5 (witness): the attribute loop evaluated on a list holding the
structural identifier attribute followed by a regular field — the only
resulting field traces to the regular attribute. -/
theorem c5_id_attributes_excluded_witness :
    handleAttributes testEnv sqlPolicy "Customer" "c1" emptyParsedData [attrId, attrInline] =
      .ok (emptyParsedData.addField "c1" "f1" { name := "name", type := "string" }) ∧
    (("c1", "f1", ({ name := "name", type := "string" } : FieldData)) ∈
        emptyParsedData.fields ∨
      ∃ a, a ∈ [attrId, attrInline] ∧ testEnv.isAnId a.name = false ∧
        ("c1", "f1", ({ name := "name", type := "string" } : FieldData)).2.1 = a.xmiId ∧
        ("c1", "f1", ({ name := "name", type := "string" } : FieldData)).1 = "c1") :=
  ⟨by decide,
    c5_id_attributes_excluded testEnv sqlPolicy "Customer" "c1" [attrId, attrInline]
      emptyParsedData
      (emptyParsedData.addField "c1" "f1" { name := "name", type := "string" })
      (by decide) ("c1", "f1", { name := "name", type := "string" }) (by decide)⟩

/-- C8 (confirmed): parsing is deterministic — the same document parsed
twice with the same backend gives structurally equal results (the whole
parse is a pure function of the document and policy). -/
theorem c8_parse_deterministic (env : ParserEnv) (db : DatabaseTypes)
    (d1 d2 : List Element) (h : d1 = d2) :
    parse env db d1 = parse env db d2 := by
  rw [h]

/-- C8 (witness): determinism evaluated on a sample document holding a
class with fields, a primitive type, an enumeration and an
association. -/
theorem c8_parse_deterministic_witness :
    doc0 = doc0 ∧ parse testEnv sqlPolicy doc0 = parse testEnv sqlPolicy doc0 :=
  ⟨rfl, c8_parse_deterministic testEnv sqlPolicy doc0 doc0 rfl⟩

end JhipsterUml
